import Mathlib

/-!
Verification development for the real-time video analytics backend.

The definitions below are a shallow embedding of the frame-processing
pipeline of the repository:

* `ObjectTracker` models `backend/app/models/tracker.py` (the tracked-object
  store: `init`, `update`, `reinitialize`).
* `ObjectDetector.detect` models `backend/app/models/detector.py` (`detect`
  catches every internal exception and returns the empty list).
* `VideoProcessor` models the direct (non-agent) path of
  `backend/app/utils/processor.py` (`process_video`, `get_status`), which is
  the configuration the HTTP layer instantiates (`use_agents=False`).
* `Routes` models the job registry logic of `backend/app/api/routes.py`
  (`run_video_processing`, `upload_video`, `cleanup_old_jobs`).

Opaque external capabilities (video frames, the YOLO model, the per-object
OpenCV trackers, wall-clock time) are represented by oracles: per-frame /
per-object outcome values of type `Except String α`, where `Except.error`
stands for a raised exception inside the capability. Python floats are
represented by exact rationals; Python `int()` truncation is `pyInt`.
-/

namespace RTVA

/-- Python `int()` truncation toward zero, applied to a rational. -/
def pyInt (q : ℚ) : Int := if 0 ≤ q then q.floor else q.ceil

/-- One detection record, as produced by `ObjectDetector.detect`
(`detector.py`): corner-form bbox `[x1, y1, x2, y2]`. -/
structure Detection where
  det_id : Nat
  class_id : Nat
  class_name : String
  confidence : ℚ
  x1 : ℚ
  y1 : ℚ
  x2 : ℚ
  y2 : ℚ
  deriving DecidableEq

/-- A bbox in origin+extent form `(x, y, w, h)`, the tracker's internal form. -/
structure Box where
  x : Int
  y : Int
  w : Int
  h : Int
  deriving DecidableEq

/-- One entry of `ObjectTracker.tracked_objects` (`tracker.py`). The Python
dict also holds the live `tracker` object; its behaviour is supplied
externally through oracles keyed by the object's id, so the entry itself is
pure data. -/
structure TrackedObject where
  id : Nat
  class_id : Nat
  class_name : String
  confidence : ℚ
  bbox : Box
  history : List Box
  deriving DecidableEq

/-- State of one `ObjectTracker` instance: the store list and the
monotone id counter (`self.tracked_objects`, `self.next_id`). -/
structure TrackerState where
  tracked_objects : List TrackedObject
  next_id : Nat
  deriving DecidableEq

/-- A freshly constructed `ObjectTracker` (`__init__`): empty store, id 0. -/
def freshTracker : TrackerState := ⟨[], 0⟩

/-- Corner-to-origin conversion performed in `ObjectTracker.init`:
`bbox = (int(x1), int(y1), int(x2 - x1), int(y2 - y1))`. -/
def detBox (d : Detection) : Box :=
  ⟨pyInt d.x1, pyInt d.y1, pyInt (d.x2 - d.x1), pyInt (d.y2 - d.y1)⟩

/-- The tracked object built in `ObjectTracker.init` for a detection that
initialized successfully: fresh id, fields carried from the detection,
history seeded with the initial bbox. -/
def mkTracked (nid : Nat) (d : Detection) : TrackedObject :=
  ⟨nid, d.class_id, d.class_name, d.confidence, detBox d, [detBox d]⟩

/-- Outcome of `tracker.init(frame, bbox)` for one detection: the code wraps
the call in try/except and treats an exception as `success = False`. -/
def initSuccess (o : Except String Bool) : Bool :=
  match o with
  | .ok b => b
  | .error _ => false

/-- The per-detection loop of `ObjectTracker.init` (`tracker.py` lines
72-102): walks the detection list, appending a tracked object with the next
fresh id for every detection whose tracker initialized successfully. `fi`
gives the init outcome for the detection at each list position. -/
def initLoop (fi : Nat → Except String Bool) :
    Nat → List Detection → List TrackedObject → Nat → List TrackedObject × Nat
  | _, [], objs, nid => (objs, nid)
  | idx, d :: ds, objs, nid =>
    if initSuccess (fi idx) then
      initLoop fi (idx + 1) ds (objs ++ [mkTracked nid d]) (nid + 1)
    else
      initLoop fi (idx + 1) ds objs nid

/-- `ObjectTracker.init(frame, detections)`: clears the store, then runs the
per-detection loop. `next_id` is NOT reset. -/
def ObjectTracker.init (fi : Nat → Except String Bool) (dets : List Detection)
    (st : TrackerState) : TrackerState :=
  let (objs, nid) := initLoop fi 0 dets [] st.next_id
  ⟨objs, nid⟩

/-- `ObjectTracker.reinitialize(frame, detections)` just calls `init`
(the name is shortened here). -/
def ObjectTracker.reinit (fi : Nat → Except String Bool) (dets : List Detection)
    (st : TrackerState) : TrackerState :=
  ObjectTracker.init fi dets st

/-- `history` maintenance in `ObjectTracker.update`: append, then keep only
the last 30 entries when the length exceeds 30 (`history[-30:]`). -/
def pushHist (h : List Box) (b : Box) : List Box :=
  if 30 < (h ++ [b]).length then (h ++ [b]).drop ((h ++ [b]).length - 30)
  else h ++ [b]

/-- One result record appended by `ObjectTracker.update` on success:
corner-form bbox `[x, y, x+w, y+h]`. -/
structure TrackResult where
  id : Nat
  class_id : Nat
  class_name : String
  confidence : ℚ
  bbox : List Int
  deriving DecidableEq

/-- The result record built from a tracked object and its new bbox. -/
def mkTrackResult (o : TrackedObject) (b : Box) : TrackResult :=
  ⟨o.id, o.class_id, o.class_name, o.confidence, [b.x, b.y, b.x + b.w, b.y + b.h]⟩

/-- The per-object loop of `ObjectTracker.update` (`tracker.py` lines
119-148). `u` gives, for the object with a given id, the outcome of its
`tracker.update(frame)` call this frame: `Except.error` models a raised
exception (caught with `continue`), `ok (false, _)` a reported failure. In
both failure cases the object is left unchanged in the store and contributes
no result. On success the bbox and history are updated and a result record
is appended. -/
def updateLoop (u : Nat → Except String (Bool × Box)) :
    List TrackedObject → List TrackedObject × List TrackResult
  | [] => ([], [])
  | o :: os =>
    match u o.id with
    | .error _ => (o :: (updateLoop u os).1, (updateLoop u os).2)
    | .ok (false, _) => (o :: (updateLoop u os).1, (updateLoop u os).2)
    | .ok (true, b) =>
      ({ o with bbox := b, history := pushHist o.history b } :: (updateLoop u os).1,
        mkTrackResult o b :: (updateLoop u os).2)

/-- `ObjectTracker.update(frame)`: advances every tracked object,
returning the new state and the per-frame result list. It is a total
function: every exception of an individual tracker is handled inside. -/
def ObjectTracker.update (u : Nat → Except String (Bool × Box))
    (st : TrackerState) : TrackerState × List TrackResult :=
  let (objs, rs) := updateLoop u st.tracked_objects
  (⟨objs, st.next_id⟩, rs)

/-- `ObjectDetector.detect` (`detector.py` lines 122-174): the whole body is
wrapped in try/except and any exception yields the empty detection list.
The oracle is the behaviour of the wrapped body. -/
def ObjectDetector.detect (o : Except String (List Detection)) : List Detection :=
  match o with
  | .ok ds => ds
  | .error _ => []

/-! ### The pipeline driver: `VideoProcessor.process_video`, direct path

The HTTP layer constructs `VideoProcessor(use_agents=False)`, so the live
frame loop is the direct detector/tracker path of `processor.py` lines
108-193. One `FrameOracle` per frame read carries the behaviour of the
external capabilities on that frame. -/

/-- External behaviour on one frame: the detector body's outcome, the
per-detection tracker-init outcomes (by position in the detection list) and
the per-object tracker-update outcomes (by object id). -/
structure FrameOracle where
  detOut : Except String (List Detection)
  trkInit : Nat → Except String Bool
  trkUpd : Nat → Except String (Bool × Box)

/-- A per-frame record appended to `all_detections`: either a detection dict
or a tracking-result dict, each tagged with `frame_number`. -/
inductive FrameRec
  | det (d : Detection) (frame_number : Nat)
  | trk (t : TrackResult) (frame_number : Nat)
  deriving DecidableEq

/-- Which branch the scheduler took on a frame. -/
inductive Action
  | detect
  | track
  deriving DecidableEq

/-- The scheduler guard of `processor.py` line 142:
`frame_count % detection_interval == 0 or frame_count == 0`. -/
def isDetectionFrame (interval fc : Nat) : Bool :=
  fc % interval == 0 || fc == 0

/-- The detect-or-track body of one loop iteration (`processor.py` lines
141-166), without the progress bookkeeping: returns the new tracker state,
the records appended to `all_detections` for this frame and the action
taken. On a detection frame the store is reinitialized only when the
detection list is nonempty (`if self.tracker and detections:`). -/
def frameBody (interval : Nat) (o : FrameOracle) (fc : Nat)
    (trk : TrackerState) : TrackerState × List FrameRec × Action :=
  if isDetectionFrame interval fc then
    let ds := ObjectDetector.detect o.detOut
    let trk' := if ds.isEmpty then trk else ObjectTracker.reinit o.trkInit ds trk
    (trk', ds.map (fun d => FrameRec.det d fc), Action.detect)
  else
    ((ObjectTracker.update o.trkUpd trk).1,
      (ObjectTracker.update o.trkUpd trk).2.map (fun r => FrameRec.trk r fc),
      Action.track)

/-- One write to `self.processing_status[analysis_id]`. -/
structure StatusWrite where
  status : String
  progress : Nat
  message : String
  deriving DecidableEq

/-- The progress write issued every 10th frame (`processor.py` lines
181-190) when `total_frames` is nonzero:
`min(100, int((frame_count / total_frames) * 100))` (exact rationals, so the
truncation is natural-number division). -/
def progressWrite (fc tf : Nat) : StatusWrite :=
  ⟨"processing", min 100 (fc * 100 / tf),
    "Processing frame " ++ toString fc ++ "/" ++ toString tf⟩

/-- In-loop state of `process_video`: tracker store, accumulated
`all_detections`, `frame_count`, status writes so far and (for observation)
the list of scheduler actions taken. -/
structure LoopState where
  trk : TrackerState
  dets : List FrameRec
  fc : Nat
  writes : List StatusWrite
  actions : List Action

/-- One iteration of the frame loop: the detect/track body, then the
every-10-frames progress update. With `total_frames = 0` Python's
`frame_count / total_frames` raises `ZeroDivisionError`; this aborts the
loop, carrying the message to the surrounding handler (`some msg`). -/
def stepFrame (interval tf : Nat) (st : LoopState) (o : FrameOracle) :
    LoopState × Option String :=
  let fb := frameBody interval o st.fc st.trk
  let st1 : LoopState :=
    { st with
      trk := fb.1
      dets := st.dets ++ fb.2.1
      actions := st.actions ++ [fb.2.2] }
  if st.fc % 10 == 0 then
    if tf == 0 then
      (st1, some "ZeroDivisionError: division by zero")
    else
      ({ st1 with fc := st.fc + 1, writes := st.writes ++ [progressWrite st.fc tf] },
        none)
  else
    ({ st1 with fc := st.fc + 1 }, none)

/-- The frame loop: reads frames until the source is exhausted, or stops at
the first escaping exception (which the outer handler will turn into an
`error` status). -/
def runFrames (interval tf : Nat) : List FrameOracle → LoopState → LoopState × Option String
  | [], st => (st, none)
  | o :: os, st =>
    match stepFrame interval tf st o with
    | (st', none) => runFrames interval tf os st'
    | (st', some e) => (st', some e)

/-- Python-dict style class_name counting (`processor.py` lines 204-211),
as an insertion-ordered association list. -/
def bumpCount (m : List (String × Nat)) (c : String) : List (String × Nat) :=
  if m.any (fun p => p.1 == c) then
    m.map (fun p => if p.1 == c then (p.1, p.2 + 1) else p)
  else
    m ++ [(c, 1)]

/-- `class_name` of a record in `all_detections`. -/
def recClassName : FrameRec → String
  | .det d _ => d.class_name
  | .trk t _ => t.class_name

/-- The `results` dict assembled at the end of `process_video` (wall-clock
fields `fps`, `duration`, `avg_processing_time` and the output path are
omitted: they are opaque to the claims). -/
structure RunResults where
  total_frames : Nat
  processed_frames : Nat
  detections : List FrameRec
  total_detections : Nat
  class_counts : List (String × Nat)
  deriving DecidableEq

/-- Outcome of one `process_video` call: final status as recorded in
`processing_status`, the full sequence of status writes, the returned
results (none on error) and the final loop state (for observation). -/
structure FinalOutcome where
  status : String
  writes : List StatusWrite
  result : Option RunResults
  final : LoopState

/-- Initial loop state, including the initial
`{"status": "processing", "progress": 0}` write made on entry. -/
def initLoopState : LoopState :=
  { trk := freshTracker, dets := [], fc := 0,
    writes := [⟨"processing", 0, "Starting video processing"⟩], actions := [] }

/-- `VideoProcessor.process_video` (direct path). `opens` is whether
`cv2.VideoCapture` opened the file; a failed open raises before the loop and
the outer handler records `error`. On a clean loop the completed status is
written and the results returned; on an escaping exception the error status
is written and no result is produced. -/
def process_video (interval tf : Nat) (opens : Bool) (os : List FrameOracle) :
    FinalOutcome :=
  if opens then
    match runFrames interval tf os initLoopState with
    | (st, none) =>
      { status := "completed",
        writes := st.writes ++ [⟨"completed", 100, "Video processing completed"⟩],
        result := some ⟨tf, st.fc, st.dets, st.dets.length,
          st.dets.foldl (fun m r => bumpCount m (recClassName r)) []⟩,
        final := st }
    | (st, some e) =>
      { status := "error", writes := st.writes ++ [⟨"error", 0, e⟩],
        result := none, final := st }
  else
    { status := "error",
      writes := initLoopState.writes ++
        [⟨"error", 0, "Could not open video file"⟩],
      result := none, final := initLoopState }

/-! ### The status registries -/

/-- One entry of a status registry (`processing_status` in the processors,
`processing_jobs` in the routes). `hasResult` records whether the write also
stored a `result` payload (only the routes-level completed write does). -/
structure JobWrite where
  status : String
  progress : Nat
  message : String
  hasResult : Bool
  deriving DecidableEq

/-- Terminal job statuses. -/
def isTerminalStatus (s : String) : Bool :=
  s == "completed" || s == "error"

/-- The writes `run_video_processing` (`routes.py` lines 47-96) makes to
`processing_jobs[analysis_id]`, given whether a processor module was
available and the outcome of `processor.process_video`. The function writes
`processing`, runs the processor, then writes exactly one terminal entry:
`completed` with the result, or `error` with a message (an unavailable
processor raises and is handled by the same except block). -/
def run_video_processing (procAvailable : Bool)
    (outcome : Except String RunResults) : List JobWrite :=
  ⟨"processing", 0, "Processing video in background", false⟩ ::
    (if procAvailable then
      match outcome with
      | .ok _ => [⟨"completed", 100, "Processing completed successfully", true⟩]
      | .error e => [⟨"error", 0, "Processing failed: " ++ e, false⟩]
    else
      [⟨"error", 0, "Processing failed: No processor available", false⟩])

/-- The complete sequence of registry writes one driver performs for one
job: `upload_video` (`routes.py` lines 145-158) writes `queued` before
starting the background thread, which then runs `run_video_processing`. -/
def jobTrace (procAvailable : Bool) (outcome : Except String RunResults) :
    List JobWrite :=
  ⟨"queued", 0, "Video uploaded, queued for processing", false⟩ ::
    run_video_processing procAvailable outcome

/-- The transition relation of the job state machine
`queued -> processing -> (completed | error)`, with `processing` allowed to
repeat for progress updates. -/
def allowedTransition (a b : String) : Bool :=
  (a == "queued" && b == "processing") ||
    (a == "processing" &&
      (b == "processing" || b == "completed" || b == "error"))

/-- Adjacent-pairs check of `allowedTransition` over a status sequence. -/
def chainAllowed : List String → Bool
  | [] => true
  | [_] => true
  | a :: b :: rest => allowedTransition a b && chainAllowed (b :: rest)

/-- An entry of `VideoProcessor.processing_status` as read by `get_status`. -/
structure StatusEntry where
  status : String
  progress : Nat
  message : String
  deriving DecidableEq

/-- `VideoProcessor.get_status` (`processor.py` lines 276-293): dictionary
lookup with a `not_found` sentinel for unknown ids. Totality of this
function is the embedding of "never raises". -/
def get_status (reg : List (String × StatusEntry)) (analysis_id : String) :
    StatusEntry :=
  match reg.lookup analysis_id with
  | some e => e
  | none => ⟨"not_found", 0, "No analysis found with ID: " ++ analysis_id⟩

/-! ### Job eviction: `cleanup_old_jobs` -/

/-- A registry entry as seen by `cleanup_old_jobs`: its status and the
optional `completed_at` key. No code path of the repository ever stores a
`completed_at` key, so in every reachable registry this field is `none`. -/
structure JobEntry where
  status : String
  completed_at : Option Nat
  deriving DecidableEq

/-- The sort key `x[1].get("completed_at", 0)` of `routes.py` line 357. -/
def completedAtKey (e : JobEntry) : Nat :=
  e.completed_at.getD 0

/-- Stable insertion for descending order: the new element goes after every
earlier element whose key is greater or equal, which is exactly the ordering
produced by Python's stable `sorted(..., reverse=True)`. -/
def insertDesc (x : String × JobEntry) :
    List (String × JobEntry) → List (String × JobEntry)
  | [] => [x]
  | y :: ys =>
    if completedAtKey x.2 ≤ completedAtKey y.2 then y :: insertDesc x ys
    else x :: y :: ys

/-- Stable sort by `completed_at` descending, the model of
`sorted(processing_jobs.items(), key=..., reverse=True)`. -/
def sortByCompletedDesc (l : List (String × JobEntry)) :
    List (String × JobEntry) :=
  l.foldl (fun acc x => insertDesc x acc) []

/-- `cleanup_old_jobs` (`routes.py` lines 344-368): when more than 10 jobs
are registered, keep the first 10 of the descending-by-`completed_at` stable
sort; otherwise leave the registry unchanged. -/
def cleanup_old_jobs (jobs : List (String × JobEntry)) :
    List (String × JobEntry) :=
  if 10 < jobs.length then (sortByCompletedDesc jobs).take 10 else jobs

/-! ### Tracker lifetimes

A lifetime of one `ObjectTracker` instance is a sequence of `init` /
`reinitialize` / `update` calls on it, starting from the fresh state. -/

/-- One operation on a tracker instance, with its external oracles. -/
inductive TrkOp
  | init (fi : Nat → Except String Bool) (dets : List Detection)
  | reinit (fi : Nat → Except String Bool) (dets : List Detection)
  | update (u : Nat → Except String (Bool × Box))

/-- Apply one operation; the second component is the list of ids assigned
during the operation, in assignment order (after an `init`/`reinitialize`,
every object in the store is freshly assigned since the store was cleared). -/
def applyOp (st : TrackerState) : TrkOp → TrackerState × List Nat
  | .init fi dets =>
    let st' := ObjectTracker.init fi dets st
    (st', st'.tracked_objects.map (fun o => o.id))
  | .reinit fi dets =>
    let st' := ObjectTracker.reinit fi dets st
    (st', st'.tracked_objects.map (fun o => o.id))
  | .update u => ((ObjectTracker.update u st).1, [])

/-- Run a lifetime: final state plus the concatenated assignment log. -/
def runOps (st : TrackerState) : List TrkOp → TrackerState × List Nat
  | [] => (st, [])
  | op :: ops =>
    let (st', ids) := applyOp st op
    let (st'', rest) := runOps st' ops
    (st'', ids ++ rest)

/-- A 15-entry registry of completed jobs in insertion order, exactly as the
driver produces them: no entry carries a `completed_at` key (no code path of
the repository ever sets one). -/
def cleanupExample : List (String × JobEntry) :=
  [("j0", ⟨"completed", none⟩), ("j1", ⟨"completed", none⟩),
   ("j2", ⟨"completed", none⟩), ("j3", ⟨"completed", none⟩),
   ("j4", ⟨"completed", none⟩), ("j5", ⟨"completed", none⟩),
   ("j6", ⟨"completed", none⟩), ("j7", ⟨"completed", none⟩),
   ("j8", ⟨"completed", none⟩), ("j9", ⟨"completed", none⟩),
   ("j10", ⟨"completed", none⟩), ("j11", ⟨"completed", none⟩),
   ("j12", ⟨"completed", none⟩), ("j13", ⟨"completed", none⟩),
   ("j14", ⟨"completed", none⟩)]

/-- Failure of one object's per-frame tracker update: the tracker raised, or
reported `success = False`. -/
def updFailed (o : Except String (Bool × Box)) : Bool :=
  match o with
  | .ok (true, _) => false
  | _ => true

/-- The scheduler decision on a frame, as an action. -/
def scheduledAction (interval fc : Nat) : Action :=
  if isDetectionFrame interval fc then Action.detect else Action.track

/-- The actions the loop takes over `n` frames starting at frame index `fc`. -/
def actionsFrom (interval : Nat) : Nat → Nat → List Action
  | _, 0 => []
  | fc, n + 1 => scheduledAction interval fc :: actionsFrom interval (fc + 1) n

/-- The progress writes the loop publishes over `n` frames starting at `fc`. -/
def writesFrom (tf : Nat) : Nat → Nat → List StatusWrite
  | _, 0 => []
  | fc, n + 1 =>
    (if fc % 10 == 0 then [progressWrite fc tf] else []) ++ writesFrom tf (fc + 1) n

/-- A concrete detection used by the witness instantiations. -/
def exDet : Detection := ⟨0, 1, "person", 1, 0, 0, 10, 10⟩

/-- A frame oracle on which every capability behaves trivially: the detector
finds nothing and every tracker succeeds in place. -/
def oNoDet : FrameOracle :=
  ⟨Except.ok [], fun _ => Except.ok true, fun _ => Except.ok (true, ⟨0, 0, 0, 0⟩)⟩

/-- A frame oracle whose detector finds exactly one object. -/
def oDet1 : FrameOracle :=
  ⟨Except.ok [exDet], fun _ => Except.ok true, fun _ => Except.ok (true, ⟨0, 0, 10, 10⟩)⟩

/-- A frame oracle whose detector and tracker internals both raise. -/
def oRaise : FrameOracle :=
  ⟨Except.error "detector crashed", fun _ => Except.error "init crashed",
    fun _ => Except.error "tracker crashed"⟩

/-- Does this record come from a tracker update at frame `n`? -/
def isTrkAt (n : Nat) (r : FrameRec) : Bool :=
  match r with
  | .trk _ m => m == n
  | .det _ _ => false

/-- Frames 0..15: one detection at frame 0, then tracker-only frames, and at
the detection frame 15 the detector returns the empty list. -/
def c3os16 : List FrameOracle := oDet1 :: List.replicate 15 oNoDet

/-- Frames 0..16: as `c3os16` with one further tracker-only frame. -/
def c3os17 : List FrameOracle := oDet1 :: List.replicate 16 oNoDet

/-- Store well-formedness: ids in the store are strictly increasing in store
order and below `next_id`. Holds for the fresh tracker and is preserved by
every operation. -/
def storeInv (st : TrackerState) : Prop :=
  (∀ o ∈ st.tracked_objects, o.id < st.next_id) ∧
    List.Pairwise (· < ·) (st.tracked_objects.map (fun o => o.id))

/-! ### Helper lemmas about the tracker -/

lemma initLoop_spec (fi : Nat → Except String Bool) (ds : List Detection) :
    ∀ (idx : Nat) (objs : List TrackedObject) (nid : Nat),
    (∀ o ∈ objs, o.id < nid) →
    List.Pairwise (· < ·) (objs.map (fun o => o.id)) →
    (∀ o ∈ (initLoop fi idx ds objs nid).1, o.id < (initLoop fi idx ds objs nid).2) ∧
    List.Pairwise (· < ·) ((initLoop fi idx ds objs nid).1.map (fun o => o.id)) ∧
    nid ≤ (initLoop fi idx ds objs nid).2 ∧
    (∀ o ∈ (initLoop fi idx ds objs nid).1,
      o ∈ objs ∨ (nid ≤ o.id ∧ o.history.length = 1)) ∧
    (initLoop fi idx ds objs nid).1.length ≤ objs.length + ds.length := by
  induction ds with
  | nil =>
    intro idx objs nid h1 h2
    exact ⟨h1, h2, Nat.le_refl _, fun o ho => Or.inl ho, by simp [initLoop]⟩
  | cons d ds ih =>
    intro idx objs nid h1 h2
    by_cases hs : initSuccess (fi idx) = true
    · have h1' : ∀ o ∈ objs ++ [mkTracked nid d], o.id < nid + 1 := by
        intro o ho
        rcases List.mem_append.mp ho with h | h
        · exact Nat.lt_succ_of_lt (h1 o h)
        · simp only [List.mem_singleton] at h
          subst h
          exact Nat.lt_succ_self _
      have h2' : List.Pairwise (· < ·)
          ((objs ++ [mkTracked nid d]).map (fun o => o.id)) := by
        rw [List.map_append, List.pairwise_append]
        refine ⟨h2, List.pairwise_singleton _ _, ?_⟩
        intro a ha b hb
        simp only [List.map_singleton, List.mem_singleton] at hb
        subst hb
        rcases List.mem_map.mp ha with ⟨o, ho, rfl⟩
        exact h1 o ho
      have hrec := ih (idx + 1) (objs ++ [mkTracked nid d]) (nid + 1) h1' h2'
      have heq : initLoop fi idx (d :: ds) objs nid =
          initLoop fi (idx + 1) ds (objs ++ [mkTracked nid d]) (nid + 1) := by
        simp [initLoop, hs]
      rw [heq]
      refine ⟨hrec.1, hrec.2.1, Nat.le_of_succ_le hrec.2.2.1, ?_, ?_⟩
      · intro o ho
        rcases hrec.2.2.2.1 o ho with h | h
        · rcases List.mem_append.mp h with h' | h'
          · exact Or.inl h'
          · simp only [List.mem_singleton] at h'
            subst h'
            exact Or.inr ⟨Nat.le_refl _, rfl⟩
        · exact Or.inr ⟨Nat.le_of_succ_le h.1, h.2⟩
      · have hlen := hrec.2.2.2.2
        simp only [List.length_append, List.length_singleton, List.length_cons,
          List.length_nil] at hlen ⊢
        omega
    · have hrec := ih (idx + 1) objs nid h1 h2
      have heq : initLoop fi idx (d :: ds) objs nid =
          initLoop fi (idx + 1) ds objs nid := by
        simp [initLoop, hs]
      rw [heq]
      refine ⟨hrec.1, hrec.2.1, hrec.2.2.1, hrec.2.2.2.1, ?_⟩
      have hlen := hrec.2.2.2.2
      simp only [List.length_cons]
      omega

lemma init_spec (fi : Nat → Except String Bool) (dets : List Detection)
    (st : TrackerState) :
    storeInv (ObjectTracker.init fi dets st) ∧
    st.next_id ≤ (ObjectTracker.init fi dets st).next_id ∧
    (∀ o ∈ (ObjectTracker.init fi dets st).tracked_objects,
      st.next_id ≤ o.id ∧ o.history.length = 1) ∧
    (ObjectTracker.init fi dets st).tracked_objects.length ≤ dets.length := by
  have h := initLoop_spec fi dets 0 [] st.next_id (by simp) (by simp)
  have hshape : ObjectTracker.init fi dets st =
      ⟨(initLoop fi 0 dets [] st.next_id).1, (initLoop fi 0 dets [] st.next_id).2⟩ := by
    simp [ObjectTracker.init]
  rw [hshape]
  refine ⟨⟨h.1, h.2.1⟩, h.2.2.1, ?_, by simpa using h.2.2.2.2⟩
  intro o ho
  rcases h.2.2.2.1 o ho with hc | hc
  · exact absurd hc (List.not_mem_nil o)
  · exact hc

lemma updateLoop_ids (u : Nat → Except String (Bool × Box)) :
    ∀ os : List TrackedObject,
      (updateLoop u os).1.map (fun o => o.id) = os.map (fun o => o.id) := by
  intro os
  induction os with
  | nil => rfl
  | cons o os ih =>
    rcases hu : u o.id with e | p
    · simp [updateLoop, hu, ih]
    · rcases p with ⟨b, bx⟩
      cases b <;> simp [updateLoop, hu, ih]

lemma update_shape (u : Nat → Except String (Bool × Box)) (st : TrackerState) :
    (ObjectTracker.update u st).1 =
      ⟨(updateLoop u st.tracked_objects).1, st.next_id⟩ ∧
    (ObjectTracker.update u st).2 = (updateLoop u st.tracked_objects).2 := by
  constructor <;> simp [ObjectTracker.update]

lemma update_storeInv (u : Nat → Except String (Bool × Box))
    (st : TrackerState) (h : storeInv st) :
    storeInv (ObjectTracker.update u st).1 := by
  rw [(update_shape u st).1]
  constructor
  · intro o ho
    have : o.id ∈ (updateLoop u st.tracked_objects).1.map (fun o => o.id) :=
      List.mem_map.mpr ⟨o, ho, rfl⟩
    rw [updateLoop_ids] at this
    rcases List.mem_map.mp this with ⟨o', ho', hid⟩
    simpa [hid] using h.1 o' ho'
  · have := h.2
    simpa [updateLoop_ids] using this

lemma applyOp_spec (st : TrackerState) (op : TrkOp) (h : storeInv st) :
    storeInv (applyOp st op).1 ∧
    List.Pairwise (· < ·) (applyOp st op).2 ∧
    (∀ i ∈ (applyOp st op).2, st.next_id ≤ i ∧ i < (applyOp st op).1.next_id) ∧
    st.next_id ≤ (applyOp st op).1.next_id := by
  cases op with
  | init fi dets =>
    have hi := init_spec fi dets st
    refine ⟨hi.1, hi.1.2, ?_, hi.2.1⟩
    intro i hmem
    rcases List.mem_map.mp hmem with ⟨o, ho, rfl⟩
    exact ⟨(hi.2.2.1 o ho).1, hi.1.1 o ho⟩
  | reinit fi dets =>
    have hi := init_spec fi dets st
    refine ⟨hi.1, hi.1.2, ?_, hi.2.1⟩
    intro i hmem
    rcases List.mem_map.mp hmem with ⟨o, ho, rfl⟩
    exact ⟨(hi.2.2.1 o ho).1, hi.1.1 o ho⟩
  | update u =>
    refine ⟨update_storeInv u st h, by simp [applyOp], by simp [applyOp], ?_⟩
    show st.next_id ≤ (ObjectTracker.update u st).1.next_id
    rw [(update_shape u st).1]

lemma runOps_spec (ops : List TrkOp) :
    ∀ st : TrackerState, storeInv st →
    storeInv (runOps st ops).1 ∧
    List.Pairwise (· < ·) (runOps st ops).2 ∧
    (∀ i ∈ (runOps st ops).2, st.next_id ≤ i ∧ i < (runOps st ops).1.next_id) ∧
    st.next_id ≤ (runOps st ops).1.next_id := by
  induction ops with
  | nil =>
    intro st h
    exact ⟨h, List.Pairwise.nil, by simp [runOps], Nat.le_refl _⟩
  | cons op ops ih =>
    intro st h
    have hop := applyOp_spec st op h
    have hrec := ih (applyOp st op).1 hop.1
    have heq : runOps st (op :: ops) =
        ((runOps (applyOp st op).1 ops).1,
          (applyOp st op).2 ++ (runOps (applyOp st op).1 ops).2) := by
      simp [runOps]
    rw [heq]
    refine ⟨hrec.1, ?_, ?_, Nat.le_trans hop.2.2.2 hrec.2.2.2⟩
    · rw [List.pairwise_append]
      refine ⟨hop.2.1, hrec.2.1, ?_⟩
      intro a ha b hb
      exact Nat.lt_of_lt_of_le (hop.2.2.1 a ha).2 (hrec.2.2.1 b hb).1
    · intro i hi
      rcases List.mem_append.mp hi with hia | hib
      · exact ⟨(hop.2.2.1 i hia).1,
          Nat.lt_of_lt_of_le (hop.2.2.1 i hia).2 hrec.2.2.2⟩
      · exact ⟨Nat.le_trans hop.2.2.2 (hrec.2.2.1 i hib).1, (hrec.2.2.1 i hib).2⟩

lemma pushHist_length_le (h : List Box) (b : Box) :
    (pushHist h b).length ≤ 30 := by
  unfold pushHist
  by_cases hc : 30 < (h ++ [b]).length
  · rw [if_pos hc, List.length_drop]
    omega
  · rw [if_neg hc]
    omega

lemma pushHist_evict (h : List Box) (b : Box) (hl : h.length = 30) :
    pushHist h b = h.drop 1 ++ [b] := by
  cases h with
  | nil => simp at hl
  | cons a t =>
    simp only [List.length_cons] at hl
    have hc : 30 < ((a :: t) ++ [b]).length := by
      simp only [List.cons_append, List.length_append, List.length_cons,
        List.length_nil]
      omega
    have hnum : ((a :: t) ++ [b]).length - 30 = 1 := by
      simp only [List.cons_append, List.length_append, List.length_cons,
        List.length_nil]
      omega
    unfold pushHist
    rw [if_pos hc, hnum]
    simp

lemma updateLoop_hist (u : Nat → Except String (Bool × Box)) :
    ∀ os : List TrackedObject, (∀ o ∈ os, o.history.length ≤ 30) →
    ∀ o ∈ (updateLoop u os).1, o.history.length ≤ 30 := by
  intro os
  induction os with
  | nil => intro _ o ho; simp [updateLoop] at ho
  | cons a os ih =>
    intro hpre o ho
    have hhead := hpre a (List.mem_cons_self a os)
    have htail : ∀ o ∈ os, o.history.length ≤ 30 :=
      fun o' ho' => hpre o' (List.mem_cons_of_mem a ho')
    cases hu : u a.id with
    | error e =>
      simp only [updateLoop, hu] at ho
      rcases List.mem_cons.mp ho with h | h
      · subst h; exact hhead
      · exact ih htail o h
    | ok p =>
      rcases p with ⟨b, bx⟩
      cases b with
      | false =>
        simp only [updateLoop, hu] at ho
        rcases List.mem_cons.mp ho with h | h
        · subst h; exact hhead
        · exact ih htail o h
      | true =>
        simp only [updateLoop, hu] at ho
        rcases List.mem_cons.mp ho with h | h
        · subst h
          exact pushHist_length_le a.history bx
        · exact ih htail o h

lemma runOps_hist (ops : List TrkOp) :
    ∀ st : TrackerState, (∀ o ∈ st.tracked_objects, o.history.length ≤ 30) →
    ∀ o ∈ (runOps st ops).1.tracked_objects, o.history.length ≤ 30 := by
  induction ops with
  | nil =>
    intro st h o ho
    simp only [runOps] at ho
    exact h o ho
  | cons op ops ih =>
    intro st h o ho
    have heq : (runOps st (op :: ops)).1 = (runOps (applyOp st op).1 ops).1 := by
      simp [runOps]
    rw [heq] at ho
    refine ih (applyOp st op).1 ?_ o ho
    intro o' ho'
    cases op with
    | init fi dets =>
      have := ((init_spec fi dets st).2.2.1 o' ho').2
      omega
    | reinit fi dets =>
      have := ((init_spec fi dets st).2.2.1 o' ho').2
      omega
    | update u =>
      have hsh : (applyOp st (TrkOp.update u)).1 = (ObjectTracker.update u st).1 := rfl
      rw [hsh, (update_shape u st).1] at ho'
      exact updateLoop_hist u st.tracked_objects h o' ho'

lemma updateLoop_noRes (u : Nat → Except String (Bool × Box)) (oid : Nat)
    (hf : updFailed (u oid) = true) :
    ∀ os : List TrackedObject, ∀ r ∈ (updateLoop u os).2, r.id ≠ oid := by
  intro os
  induction os with
  | nil => intro r hr; simp [updateLoop] at hr
  | cons a os ih =>
    intro r hr
    cases hu : u a.id with
    | error e =>
      simp only [updateLoop, hu] at hr
      exact ih r hr
    | ok p =>
      rcases p with ⟨b, bx⟩
      cases b with
      | false =>
        simp only [updateLoop, hu] at hr
        exact ih r hr
      | true =>
        simp only [updateLoop, hu] at hr
        rcases List.mem_cons.mp hr with h | h
        · subst h
          show a.id ≠ oid
          intro heq
          rw [heq] at hu
          rw [hu] at hf
          simp [updFailed] at hf
        · exact ih r h

lemma updateLoop_allFail (u : Nat → Except String (Bool × Box)) :
    ∀ os : List TrackedObject, (∀ o ∈ os, updFailed (u o.id) = true) →
    (updateLoop u os).2 = [] := by
  intro os
  induction os with
  | nil => intro _; rfl
  | cons a os ih =>
    intro hall
    have ha := hall a (List.mem_cons_self a os)
    have htail : ∀ o ∈ os, updFailed (u o.id) = true :=
      fun o ho => hall o (List.mem_cons_of_mem a ho)
    cases hu : u a.id with
    | error e =>
      simp only [updateLoop, hu]
      exact ih htail
    | ok p =>
      rcases p with ⟨b, bx⟩
      cases b with
      | false =>
        simp only [updateLoop, hu]
        exact ih htail
      | true =>
        rw [hu] at ha
        simp [updFailed] at ha

/-! ### Helper lemmas about the frame loop -/

/-- Since `0 % interval = 0`, the `or frame_count == 0` half of the guard is
redundant: the guard is exactly divisibility of the frame index. -/
lemma isDetectionFrame_eq (interval fc : Nat) :
    isDetectionFrame interval fc = (fc % interval == 0) := by
  rcases Nat.eq_zero_or_pos fc with h | h
  · subst h
    simp [isDetectionFrame]
  · have : (fc == 0) = false := by
      simp only [beq_eq_false_iff_ne, ne_eq]
      omega
    simp [isDetectionFrame, this]

lemma frameBody_action (interval : Nat) (o : FrameOracle) (fc : Nat)
    (trk : TrackerState) :
    (frameBody interval o fc trk).2.2 = scheduledAction interval fc := by
  unfold frameBody scheduledAction
  by_cases h : isDetectionFrame interval fc = true
  · rw [if_pos h, if_pos h]
  · rw [if_neg h, if_neg h]

lemma actionsFrom_eq (interval : Nat) :
    ∀ n fc, actionsFrom interval fc n =
      (List.range n).map (fun k => scheduledAction interval (fc + k)) := by
  intro n
  induction n with
  | zero => intro fc; simp [actionsFrom]
  | succ n ih =>
    intro fc
    rw [actionsFrom, List.range_succ_eq_map, List.map_cons, List.map_map]
    rw [ih (fc + 1)]
    have harg : ((fun k => scheduledAction interval (fc + k)) ∘ (fun k => k + 1)) =
        (fun k => scheduledAction interval (fc + 1 + k)) := by
      funext k
      simp only [Function.comp]
      have he : fc + (k + 1) = fc + 1 + k := by omega
      rw [he]
    rw [harg]
    simp

lemma writesFrom_eq (tf : Nat) :
    ∀ n fc, writesFrom tf fc n =
      (List.range n).filterMap (fun k =>
        if (fc + k) % 10 == 0 then some (progressWrite (fc + k) tf) else none) := by
  intro n
  induction n with
  | zero => intro fc; simp [writesFrom]
  | succ n ih =>
    intro fc
    rw [writesFrom, List.range_succ_eq_map, List.filterMap_cons]
    rw [List.filterMap_map, ih (fc + 1)]
    have harg : ((fun k =>
        if (fc + k) % 10 == 0 then some (progressWrite (fc + k) tf) else none) ∘
          (fun k => k + 1)) =
        (fun k =>
          if (fc + 1 + k) % 10 == 0 then some (progressWrite (fc + 1 + k) tf)
          else none) := by
      funext k
      simp only [Function.comp]
      have : fc + (k + 1) = fc + 1 + k := by omega
      rw [this]
    rw [harg]
    by_cases h0 : fc % 10 == 0
    · simp only [Nat.add_zero, h0, if_pos]
      simp
    · simp only [Nat.add_zero, h0]
      simp [h0]

lemma stepFrame_ok (interval tf : Nat) (st : LoopState) (o : FrameOracle)
    (h : tf ≠ 0) :
    stepFrame interval tf st o =
      ({ trk := (frameBody interval o st.fc st.trk).1,
         dets := st.dets ++ (frameBody interval o st.fc st.trk).2.1,
         fc := st.fc + 1,
         writes := st.writes ++
           (if st.fc % 10 == 0 then [progressWrite st.fc tf] else []),
         actions := st.actions ++ [(frameBody interval o st.fc st.trk).2.2] },
        none) := by
  have htf : (tf == 0) = false := by
    simp only [beq_eq_false_iff_ne, ne_eq]
    exact h
  by_cases h10 : st.fc % 10 == 0
  · simp [stepFrame, h10, htf]
  · simp [stepFrame, h10]

lemma runFrames_cons (interval tf : Nat) (o : FrameOracle) (os : List FrameOracle)
    (st : LoopState) (h : tf ≠ 0) :
    runFrames interval tf (o :: os) st =
      runFrames interval tf os (stepFrame interval tf st o).1 := by
  rw [runFrames, stepFrame_ok interval tf st o h]

lemma runFrames_spec (interval tf : Nat) (h : tf ≠ 0) (os : List FrameOracle) :
    ∀ st : LoopState,
    (runFrames interval tf os st).2 = none ∧
    (runFrames interval tf os st).1.fc = st.fc + os.length ∧
    (runFrames interval tf os st).1.actions =
      st.actions ++ actionsFrom interval st.fc os.length ∧
    (runFrames interval tf os st).1.writes =
      st.writes ++ writesFrom tf st.fc os.length := by
  induction os with
  | nil =>
    intro st
    simp [runFrames, actionsFrom, writesFrom]
  | cons o os ih =>
    intro st
    rw [runFrames_cons interval tf o os st h]
    have hstep := stepFrame_ok interval tf st o h
    have hrec := ih (stepFrame interval tf st o).1
    rw [hstep]
    rw [hstep] at hrec
    refine ⟨hrec.1, ?_, ?_, ?_⟩
    · rw [hrec.2.1]
      simp only [List.length_cons]
      omega
    · rw [hrec.2.2.1]
      show (st.actions ++ [(frameBody interval o st.fc st.trk).2.2]) ++
          actionsFrom interval (st.fc + 1) os.length =
        st.actions ++ actionsFrom interval st.fc (os.length + 1)
      rw [frameBody_action, List.append_assoc]
      rfl
    · rw [hrec.2.2.2]
      show (st.writes ++ (if st.fc % 10 == 0 then [progressWrite st.fc tf] else [])) ++
          writesFrom tf (st.fc + 1) os.length =
        st.writes ++ writesFrom tf st.fc (os.length + 1)
      rw [List.append_assoc]
      rfl

/-- Characterization of a `process_video` run that opens its file and has a
nonzero `total_frames`: it never aborts, ends `completed`, and its final
state is the clean fold of the frame loop. -/
lemma process_video_ok (interval tf : Nat) (os : List FrameOracle) (h : tf ≠ 0) :
    (process_video interval tf true os).status = "completed" ∧
    (process_video interval tf true os).final =
      (runFrames interval tf os initLoopState).1 ∧
    (process_video interval tf true os).writes =
      (runFrames interval tf os initLoopState).1.writes ++
        [⟨"completed", 100, "Video processing completed"⟩] := by
  have hnone := (runFrames_spec interval tf h os initLoopState).1
  rcases hE : runFrames interval tf os initLoopState with ⟨st, e⟩
  rw [hE] at hnone
  simp only at hnone
  subst hnone
  constructor
  · simp [process_video, hE]
  constructor
  · simp [process_video, hE]
  · simp [process_video, hE]

/-! ## Claims -/

/-- Claim C5: `initialize` with D detections leaves at most D objects in the
store, and over any whole lifetime of one tracker instance (any sequence of
init / reinitialize / update calls from the fresh state) the assigned ids,
in assignment order, are pairwise strictly increasing — hence pairwise
distinct and never reused after a clear. -/
theorem C5_ids_strictly_increasing :
    (∀ (fi : Nat → Except String Bool) (dets : List Detection) (st : TrackerState),
      (ObjectTracker.init fi dets st).tracked_objects.length ≤ dets.length) ∧
    (∀ ops : List TrkOp, List.Pairwise (· < ·) (runOps freshTracker ops).2) := by
  constructor
  · intro fi dets st
    exact (init_spec fi dets st).2.2.2
  · intro ops
    have hfresh : storeInv freshTracker := ⟨by simp [freshTracker], by simp [freshTracker]⟩
    exact (runOps_spec ops freshTracker hfresh).2.1

/-- Claim C6: after any lifetime of init / reinitialize / update operations
starting from the fresh tracker, every object's history has length at most
30; and an update that would push a full (30-entry) history past 30 evicts
the oldest entry. -/
theorem C6_history_bounded :
    (∀ (ops : List TrkOp) (o : TrackedObject),
      o ∈ (runOps freshTracker ops).1.tracked_objects → o.history.length ≤ 30) ∧
    (∀ (h : List Box) (b : Box), h.length = 30 →
      pushHist h b = h.drop 1 ++ [b]) := by
  constructor
  · intro ops o ho
    exact runOps_hist ops freshTracker (by simp [freshTracker]) o ho
  · exact pushHist_evict

/-- Witness for C6: a concrete one-init lifetime whose single object has a
bounded history, and a concrete 30-entry history whose push evicts the
oldest entry. -/
theorem C6_witness :
    (mkTracked 0 exDet).history.length ≤ 30 ∧
      pushHist (List.replicate 30 ⟨0, 0, 0, 0⟩) ⟨1, 1, 1, 1⟩ =
        (List.replicate 30 (⟨0, 0, 0, 0⟩ : Box)).drop 1 ++ [⟨1, 1, 1, 1⟩] :=
  ⟨C6_history_bounded.1 [TrkOp.init (fun _ => Except.ok true) [exDet]]
      (mkTracked 0 exDet)
      (by simp [runOps, applyOp, ObjectTracker.init, initLoop, initSuccess,
        freshTracker]),
    C6_history_bounded.2 (List.replicate 30 ⟨0, 0, 0, 0⟩) ⟨1, 1, 1, 1⟩ (by decide)⟩

/-- Claim C8: `update` never removes (or adds, or reorders) objects: the
stored id sequence and `next_id` are unchanged, so a failed object may
contribute again later; and for every stored object whose per-frame update
fails (the tracker raised, or reported failure) no record with its id
appears in that frame's result list. `ObjectTracker.update` is a total
function — every per-object exception is handled inside, which is the
embedding of "the update call itself does not raise". -/
theorem C8_failed_update_transient :
    (∀ (u : Nat → Except String (Bool × Box)) (st : TrackerState),
      (ObjectTracker.update u st).1.tracked_objects.map (fun o => o.id) =
        st.tracked_objects.map (fun o => o.id) ∧
      (ObjectTracker.update u st).1.next_id = st.next_id) ∧
    (∀ (u : Nat → Except String (Bool × Box)) (st : TrackerState)
      (o : TrackedObject), o ∈ st.tracked_objects → updFailed (u o.id) = true →
      ((ObjectTracker.update u st).2.all (fun r => r.id != o.id)) = true) := by
  constructor
  · intro u st
    constructor
    · rw [(update_shape u st).1]
      exact updateLoop_ids u st.tracked_objects
    · rw [(update_shape u st).1]
  · intro u st o ho hf
    rw [(update_shape u st).2]
    rw [List.all_eq_true]
    intro r hr
    have := updateLoop_noRes u o.id hf st.tracked_objects r hr
    simpa using this

/-- Witness for C8: one stored object whose tracker raises this frame; it
stays in the store and the frame's result list carries no record for it. -/
theorem C8_witness :
    ((ObjectTracker.update (fun _ => Except.error "update failed")
        ⟨[mkTracked 0 exDet], 1⟩).2.all
      (fun r => r.id != (mkTracked 0 exDet).id)) = true :=
  C8_failed_update_transient.2 (fun _ => Except.error "update failed")
    ⟨[mkTracked 0 exDet], 1⟩ (mkTracked 0 exDet) (by simp) (by rfl)

/-- Claim C10: for every analysis id not present in the registry,
`get_status` returns the sentinel record with status `"not_found"` and
progress `0`. `get_status` is a total function of the registry and the id
(for any input id), which is the embedding of "never raises". -/
theorem C10_get_status_not_found (reg : List (String × StatusEntry))
    (analysis_id : String) (h : reg.lookup analysis_id = none) :
    (get_status reg analysis_id).status = "not_found" ∧
      (get_status reg analysis_id).progress = 0 := by
  simp [get_status, h]

/-- Witness for C10 at a concrete registry and an id it does not contain. -/
theorem C10_witness :
    (get_status [("a", ⟨"processing", 5, "working"⟩)] "b").status = "not_found" ∧
      (get_status [("a", ⟨"processing", 5, "working"⟩)] "b").progress = 0 :=
  C10_get_status_not_found [("a", ⟨"processing", 5, "working"⟩)] "b" (by decide)

/-- Claim C9 (code evaluated at the failing input): with 15 completed jobs
inserted in order `j0 .. j14` — none carrying a `completed_at` key, since
the code never stores one — `cleanup_old_jobs` keeps the FIRST 10 inserted
jobs `j0 .. j9` (every sort key is the default 0 and the stable sort
preserves insertion order), not the 10 most recently completed `j5 .. j14`
that its own comments promise. Exactly 10 jobs do remain. -/
theorem C9_cleanup_keeps_oldest :
    cleanup_old_jobs cleanupExample = cleanupExample.take 10 ∧
      (cleanup_old_jobs cleanupExample).map Prod.fst =
        ["j0", "j1", "j2", "j3", "j4", "j5", "j6", "j7", "j8", "j9"] ∧
      (cleanup_old_jobs cleanupExample).length = 10 ∧
      (cleanup_old_jobs cleanupExample).map Prod.fst ≠
        ["j5", "j6", "j7", "j8", "j9", "j10", "j11", "j12", "j13", "j14"] := by
  decide

/-- Claim C2: for one job, the registry writes performed by the driver
(`upload_video` followed by `run_video_processing`) form exactly the status
path `queued, processing, completed` or `queued, processing, error`; every
adjacent pair is an allowed transition of
`queued -> processing -> (completed | error)`; no write before the last one
carries a terminal status (so after the single terminal write the driver
never changes the job's status again); and a result payload is stored only
by a `completed` write. -/
theorem C2_job_status_machine (procAvailable : Bool)
    (outcome : Except String RunResults) :
    ((jobTrace procAvailable outcome).map (fun w => w.status) =
        ["queued", "processing", "completed"] ∨
      (jobTrace procAvailable outcome).map (fun w => w.status) =
        ["queued", "processing", "error"]) ∧
    chainAllowed ((jobTrace procAvailable outcome).map (fun w => w.status)) = true ∧
    ((jobTrace procAvailable outcome).dropLast.all
      (fun w => !isTerminalStatus w.status)) = true ∧
    ((jobTrace procAvailable outcome).all
      (fun w => !w.hasResult || w.status == "completed")) = true := by
  cases procAvailable <;> cases outcome <;>
    simp [jobTrace, run_video_processing, chainAllowed, allowedTransition,
      isTerminalStatus, List.dropLast]

/-- Claim C1: on every run with `detection_interval = 15` (and a nonzero
frame count so the loop reaches end of stream), the scheduler takes the
detection branch exactly on the frames whose index is a multiple of 15 and
the tracker-update branch on every other frame, whatever the external
capabilities do. -/
theorem C1_detection_schedule (tf : Nat) (os : List FrameOracle) (h : tf ≠ 0) :
    (process_video 15 tf true os).final.actions =
      (List.range os.length).map
        (fun i => if i % 15 == 0 then Action.detect else Action.track) := by
  rw [(process_video_ok 15 tf os h).2.1,
    (runFrames_spec 15 tf h os initLoopState).2.2.1]
  show [] ++ actionsFrom 15 0 os.length = _
  rw [List.nil_append, actionsFrom_eq]
  refine congrArg₂ _ ?_ rfl
  funext k
  simp [scheduledAction, isDetectionFrame_eq]

/-- Witness for C1: a concrete 31-frame run takes the detection branch on
frames 0, 15 and 30 only. -/
theorem C1_witness :
    (process_video 15 31 true (List.replicate 31 oNoDet)).final.actions =
      (List.range (List.replicate 31 oNoDet).length).map
        (fun i => if i % 15 == 0 then Action.detect else Action.track) :=
  C1_detection_schedule 31 (List.replicate 31 oNoDet) (by decide)

/-- Claim C4: failures inside a single frame's detect/track step never abort
the job. First conjunct: with any per-frame oracle behaviour at all —
including raising detectors and raising per-object trackers — a run that
opened its source (and has nonzero `total_frames`) ends with status
`completed`, never `error`. Second conjunct: a detection frame whose
detector body raises contributes zero records and leaves the store
untouched (the caught exception yields the empty detection list). Third
conjunct: a tracking frame on which every object's tracker fails or raises
contributes zero records. -/
theorem C4_frame_failure_contained :
    (∀ (interval tf : Nat) (os : List FrameOracle), tf ≠ 0 →
      (process_video interval tf true os).status = "completed") ∧
    (∀ (interval : Nat) (o : FrameOracle) (fc : Nat) (trk : TrackerState)
      (msg : String), o.detOut = Except.error msg →
      isDetectionFrame interval fc = true →
      (frameBody interval o fc trk).1 = trk ∧
        (frameBody interval o fc trk).2.1 = []) ∧
    (∀ (u : Nat → Except String (Bool × Box)) (st : TrackerState),
      (∀ o ∈ st.tracked_objects, updFailed (u o.id) = true) →
      (ObjectTracker.update u st).2 = []) := by
  refine ⟨?_, ?_, ?_⟩
  · intro interval tf os h
    exact (process_video_ok interval tf os h).1
  · intro interval o fc trk msg hdet hframe
    constructor <;>
      simp [frameBody, hframe, hdet, ObjectDetector.detect]
  · intro u st hall
    rw [(update_shape u st).2]
    exact updateLoop_allFail u st.tracked_objects hall

/-- Witness for C4: a one-frame run whose detector and trackers all raise
still completes; the raising detection frame leaves the store alone and
contributes nothing; an all-raising update contributes nothing. -/
theorem C4_witness :
    (process_video 15 1 true [oRaise]).status = "completed" ∧
    ((frameBody 15 oRaise 0 ⟨[mkTracked 0 exDet], 1⟩).1 =
        (⟨[mkTracked 0 exDet], 1⟩ : TrackerState) ∧
      (frameBody 15 oRaise 0 ⟨[mkTracked 0 exDet], 1⟩).2.1 = []) ∧
    (ObjectTracker.update (fun _ => Except.error "tracker crashed")
      ⟨[mkTracked 0 exDet], 1⟩).2 = [] :=
  ⟨C4_frame_failure_contained.1 15 1 [oRaise] (by decide),
    C4_frame_failure_contained.2.1 15 oRaise 0 ⟨[mkTracked 0 exDet], 1⟩
      "detector crashed" rfl rfl,
    C4_frame_failure_contained.2.2 (fun _ => Except.error "tracker crashed")
      ⟨[mkTracked 0 exDet], 1⟩ (fun _ _ => rfl)⟩

/-- Claim C3, counterexample: detection at frame 0 yields one object; the
detection frame 15 yields the empty list; contrary to the claim, the store
is NOT reinitialized to empty — the object survives (store size 1 after
frame 15) and the very next tracker frame 16 still contributes a tracking
record. -/
theorem C3_counterexample :
    isDetectionFrame 15 15 = true ∧
    (process_video 15 20 true c3os16).final.trk.tracked_objects.length = 1 ∧
    ((process_video 15 20 true c3os17).final.dets.any (isTrkAt 16)) = true := by
  refine ⟨rfl, ?_, ?_⟩ <;> rfl

/-- Claim C3 as amended: on a detection frame whose detector returns the
empty list, reinitialization is skipped entirely — the store (and its
objects) is left unchanged and the frame contributes zero records. In
particular an empty store stays empty across tracker frames (zero results),
which is the only situation in which the spec's scenario holds. -/
theorem C3_empty_detection_skips_reinit :
    (∀ (interval : Nat) (o : FrameOracle) (fc : Nat) (trk : TrackerState),
      ObjectDetector.detect o.detOut = [] →
      isDetectionFrame interval fc = true →
      (frameBody interval o fc trk).1 = trk ∧
        (frameBody interval o fc trk).2.1 = []) ∧
    (∀ (u : Nat → Except String (Bool × Box)) (nid : Nat),
      ObjectTracker.update u ⟨[], nid⟩ = (⟨[], nid⟩, [])) := by
  constructor
  · intro interval o fc trk hdet hframe
    constructor <;> simp [frameBody, hframe, hdet]
  · intro u nid
    rfl

/-- Witness for C3's amended statement: the empty detection at frame 15
leaves a one-object store unchanged, and an empty store yields no tracking
results. -/
theorem C3_witness :
    ((frameBody 15 oNoDet 15 ⟨[mkTracked 0 exDet], 1⟩).1 =
        (⟨[mkTracked 0 exDet], 1⟩ : TrackerState) ∧
      (frameBody 15 oNoDet 15 ⟨[mkTracked 0 exDet], 1⟩).2.1 = []) ∧
    ObjectTracker.update (fun _ => Except.ok (true, ⟨3, 3, 3, 3⟩)) ⟨[], 5⟩ =
      ((⟨[], 5⟩ : TrackerState), []) :=
  ⟨C3_empty_detection_skips_reinit.1 15 oNoDet 15 ⟨[mkTracked 0 exDet], 1⟩ rfl rfl,
    C3_empty_detection_skips_reinit.2 (fun _ => Except.ok (true, ⟨3, 3, 3, 3⟩)) 5⟩

/-- Claim C7, counterexample: with `total_frames = 0` and at least one frame
read, the progress step is NOT skipped — Python divides by `total_frames`,
the `ZeroDivisionError` escapes the frame loop, and the job ends in status
`error` with no result, contrary to the claim's "no division is attempted,
no error raised". -/
theorem C7_counterexample :
    (process_video 15 0 true [oNoDet]).status = "error" ∧
    (process_video 15 0 true [oNoDet]).result = none :=
  ⟨rfl, rfl⟩

/-- Claim C7 as amended: with nonzero `total_frames` the driver publishes,
on exactly the frames whose index is a multiple of 10, a `processing` write
with progress `min 100 (floor (fc * 100 / total_frames))`, between the
initial write and the final completed write; but when `total_frames` is
zero and at least one frame is read, the division raises at the first
progress step and the driver records status `error` with no result (the
computation is not skipped). -/
theorem C7_progress_amended :
    (∀ (interval tf : Nat) (os : List FrameOracle), tf ≠ 0 →
      (process_video interval tf true os).writes =
        ⟨"processing", 0, "Starting video processing"⟩ ::
          ((List.range os.length).filterMap (fun i =>
            if i % 10 == 0 then some (progressWrite i tf) else none) ++
            [⟨"completed", 100, "Video processing completed"⟩])) ∧
    (∀ (interval : Nat) (o : FrameOracle) (os : List FrameOracle),
      (process_video interval 0 true (o :: os)).status = "error" ∧
      (process_video interval 0 true (o :: os)).result = none) := by
  constructor
  · intro interval tf os h
    rw [(process_video_ok interval tf os h).2.2,
      (runFrames_spec interval tf h os initLoopState).2.2.2]
    show ([⟨"processing", 0, "Starting video processing"⟩] ++
        writesFrom tf 0 os.length) ++
        [⟨"completed", 100, "Video processing completed"⟩] = _
    rw [writesFrom_eq]
    simp
  · intro interval o os
    exact ⟨rfl, rfl⟩

/-- Witness for C7's amended statement: an 11-frame run with 20 total frames
publishes exactly the progress writes of frames 0 and 10; a one-frame run
with zero total frames errors out. -/
theorem C7_witness :
    (process_video 15 20 true (List.replicate 11 oNoDet)).writes =
      ⟨"processing", 0, "Starting video processing"⟩ ::
        ((List.range (List.replicate 11 oNoDet).length).filterMap (fun i =>
          if i % 10 == 0 then some (progressWrite i 20) else none) ++
          [⟨"completed", 100, "Video processing completed"⟩]) ∧
    (process_video 15 0 true (oNoDet :: [])).status = "error" ∧
    (process_video 15 0 true (oNoDet :: [])).result = none :=
  ⟨C7_progress_amended.1 15 20 (List.replicate 11 oNoDet) (by decide),
    C7_progress_amended.2 15 oNoDet []⟩

end RTVA
